import Mathlib

/-!
Shallow embedding of the mouse_jiggler repository core:
movement patterns (src/core/patterns.py), spec parsing and value objects
(src/core/value_object.py), and the JigglerService lifecycle protocol
(src/mouse_jiggler/core/service.py).

Python floats are modelled as exact rationals; Python machine behaviour
that matters (integer truthiness of a pid value, bit masking with
0x7FFFFFFF / 0xFFFFFFFF, the order of unit-suffix checks) is carried over
explicitly.
-/

namespace MouseJiggler

/-! ## Movement patterns — src/core/patterns.py -/

/-- SquarePattern.next_delta: cycles (+A,0), (0,+A), (-A,0), (0,-A) on
step mod 4, clamping amplitude below at 1. -/
def SquarePattern.next_delta (step : Nat) (amplitude : Int) : Int × Int :=
  let amplitude := if amplitude < 1 then 1 else amplitude
  let phase := step % 4
  if phase == 0 then (amplitude, 0)
  else if phase == 1 then (0, amplitude)
  else if phase == 2 then (-amplitude, 0)
  else (0, -amplitude)

/-- RandomPattern: frozen dataclass fields max_drift (default 5) and
compensate_prob (default 0.6; the Python float 0.6 and the rational 3/5
classify every value of the form k/2^32 identically, so 3/5 is the exact
model of the comparison performed by the code). -/
structure RandomPattern where
  max_drift : Int := 5
  compensate_prob : ℚ := 3/5
deriving DecidableEq

/-- The 8-direction table from RandomPattern.next_delta. -/
def RandomPattern.dirs : List (Int × Int) :=
  [(1, 0), (-1, 0), (0, 1), (0, -1), (1, 1), (1, -1), (-1, 1), (-1, -1)]

/-- RandomPattern.next_delta: magnitude 1 + (step mod amplitude), direction
from a multiplicative hash of step masked to 31 bits, and on every 17th step
a second hash (masked to 32 bits, divided by 2^32) decides a sign flip when
below compensate_prob. Pure function of its arguments, as in the source. -/
def RandomPattern.next_delta (self : RandomPattern) (step : Nat) (amplitude : Int) :
    Int × Int :=
  let amplitude := if amplitude < 1 then 1 else amplitude
  let mag : Int := 1 + (step : Int) % amplitude
  let idx : Nat := (step * 1103515245 + 12345) % 2 ^ 31
  let choice := RandomPattern.dirs.getD (idx % RandomPattern.dirs.length) (0, 0)
  let dx := choice.1 * mag
  let dy := choice.2 * mag
  if step % 17 == 0 then
    let pseudo_p : ℚ := ((step * 2654435761) % 2 ^ 32 : Nat) / 2 ^ 32
    if pseudo_p < self.compensate_prob then (-dx, -dy) else (dx, dy)
  else (dx, dy)

/-- A sequence of next_delta calls, one per (step, amplitude) pair, in call
order: used to state that outputs depend only on the arguments, never on
call order or prior calls. -/
def RandomPattern.delta_calls (self : RandomPattern) (calls : List (Nat × Int)) :
    List (Int × Int) :=
  calls.map (fun c => self.next_delta c.1 c.2)

/-! ## Spec parsing — src/core/value_object.py

Python strings are modelled as lists of characters. A Python float value
is modelled by PyFloat: an exact rational for the finite case, plus the
inf, -inf and nan values that float() also produces (float("nan") and
float("inf") succeed). Decimal literals support sign, fraction, exponent
and underscore digit grouping, as float() does. Finite arithmetic is exact
rational arithmetic; every finite value the claims exercise is exactly
representable as a binary double, so the model agrees with the float
semantics there. -/

/-- A Python float value: finite (exact rational), one of the two
infinities, or NaN. -/
inductive PyFloat
  | finite (q : ℚ)
  | inf
  | neginf
  | nan
deriving DecidableEq

/-- Python comparison x <= 0 on a float: False for NaN and +inf, True for
-inf. -/
def PyFloat.le_zero : PyFloat → Bool
  | PyFloat.finite q => decide (q ≤ 0)
  | PyFloat.inf => false
  | PyFloat.neginf => true
  | PyFloat.nan => false

/-- Python comparison x > 0 on a float: False for NaN and -inf. -/
def PyFloat.pos : PyFloat → Bool
  | PyFloat.finite q => decide (0 < q)
  | PyFloat.inf => true
  | PyFloat.neginf => false
  | PyFloat.nan => false

/-- Scaling by a positive rational constant, as the unit conversions
(/1000, *60, *3600) act on a float: infinities keep their sign, NaN stays
NaN. -/
def PyFloat.scale (x : PyFloat) (c : ℚ) : PyFloat :=
  match x with
  | PyFloat.finite q => PyFloat.finite (q * c)
  | PyFloat.inf => PyFloat.inf
  | PyFloat.neginf => PyFloat.neginf
  | PyFloat.nan => PyFloat.nan

/-- Drop leading whitespace, as the left half of Python str.strip(). -/
def stripLeft : List Char → List Char
  | [] => []
  | c :: cs => if c.isWhitespace then stripLeft cs else c :: cs

/-- Python str.strip(): drop whitespace at both ends. -/
def pyStrip (cs : List Char) : List Char :=
  (stripLeft (stripLeft cs).reverse).reverse

/-- Python str.lower() on ASCII. -/
def pyLower (cs : List Char) : List Char := cs.map Char.toLower

/-- Python str.endswith(suffix). -/
def endsWithCh (cs suffix : List Char) : Bool :=
  cs.drop (cs.length - suffix.length) == suffix

/-- Split the longest leading run of decimal digits from the rest,
consuming an underscore only between two digits (Python digit grouping:
float("1_000") succeeds, "1_", "_1" and "1__0" do not; the stray
underscore is left in the remainder, failing the caller). The returned
digits have the underscores removed. -/
def spanDigits : List Char → List Char × List Char
  | [] => ([], [])
  | c :: '_' :: c2 :: cs2 =>
    if c.isDigit then
      if c2.isDigit then
        let r := spanDigits (c2 :: cs2)
        (c :: r.1, r.2)
      else ([c], '_' :: c2 :: cs2)
    else ([], c :: '_' :: c2 :: cs2)
  | c :: cs =>
    if c.isDigit then
      let r := spanDigits cs
      (c :: r.1, r.2)
    else ([], c :: cs)

/-- Value of a digit string, most significant first. -/
def digitsVal : List Char → Nat → Nat
  | [], acc => acc
  | c :: cs, acc => digitsVal cs (10 * acc + (c.toNat - 48))

/-- Split an optional leading sign from a character list. -/
def takeSign : List Char → Int × List Char
  | '-' :: rest => (-1, rest)
  | '+' :: rest => (1, rest)
  | cs => (1, cs)

/-- Parse the exponent part after the letter e: optional sign then digits. -/
def parseExpPart (cs : List Char) : Option Int :=
  let p := takeSign cs
  let q := spanDigits p.2
  if q.1.isEmpty || !q.2.isEmpty then none
  else some (p.1 * (digitsVal q.1 0 : Int))

/-- Model of Python float(): strip, case-insensitive nan / inf / infinity
keywords with optional sign, else a decimal literal. -/
def pyFloat (s : List Char) : Option PyFloat :=
  let cs := pyLower (pyStrip s)
  let p := takeSign cs
  if p.2 == ['n', 'a', 'n'] then some PyFloat.nan
  else if p.2 == ['i', 'n', 'f'] || p.2 == ['i', 'n', 'f', 'i', 'n', 'i', 't', 'y'] then
    some (if p.1 < 0 then PyFloat.neginf else PyFloat.inf)
  else
    let q := spanDigits p.2
    let core : Option (ℚ × List Char) :=
      match q.2 with
      | '.' :: cs3 =>
        let r := spanDigits cs3
        if q.1.isEmpty && r.1.isEmpty then none
        else some ((digitsVal q.1 0 : ℚ) + (digitsVal r.1 0 : ℚ) / (10 ^ r.1.length : ℚ), r.2)
      | _ => if q.1.isEmpty then none else some ((digitsVal q.1 0 : ℚ), q.2)
    match core with
    | none => none
    | some (m, rest) =>
      match rest with
      | [] => some (PyFloat.finite (p.1 * m))
      | 'e' :: cs5 => (parseExpPart cs5).map (fun e => PyFloat.finite (p.1 * m * (10 : ℚ) ^ e))
      | 'E' :: cs5 => (parseExpPart cs5).map (fun e => PyFloat.finite (p.1 * m * (10 : ℚ) ^ e))
      | _ => none

/-- _parse_time_spec_to_seconds: strip and lowercase, then try the unit
suffixes in source order (ms before s before m before h), a bare number
being seconds; errors model ValueErrorSpec. -/
def parse_time_spec_to_seconds (spec : Option (List Char)) : Except String PyFloat :=
  match spec with
  | Option.none => .error "Time spec cannot be None."
  | some spec0 =>
    let s := pyLower (pyStrip spec0)
    if s.isEmpty then .error "Time spec cannot be empty."
    else if endsWithCh s ['m', 's'] then
      match pyFloat (s.take (s.length - 2)) with
      | some v => .ok (v.scale (1/1000))
      | Option.none => .error "Invalid time spec"
    else if endsWithCh s ['s'] then
      match pyFloat (s.take (s.length - 1)) with
      | some v => .ok v
      | Option.none => .error "Invalid time spec"
    else if endsWithCh s ['m'] then
      match pyFloat (s.take (s.length - 1)) with
      | some v => .ok (v.scale 60)
      | Option.none => .error "Invalid time spec"
    else if endsWithCh s ['h'] then
      match pyFloat (s.take (s.length - 1)) with
      | some v => .ok (v.scale 3600)
      | Option.none => .error "Invalid time spec"
    else
      match pyFloat s with
      | some v => .ok v
      | Option.none => .error "Invalid time spec"

/-- Interval value object: seconds as the parsed float value. -/
structure Interval where
  seconds : PyFloat
deriving DecidableEq

/-- Interval.from_spec: parse, then reject values for which the float test
`secs <= 0` holds (which is False for NaN: a NaN parse is accepted). -/
def Interval.from_spec (spec : List Char) : Except String Interval :=
  match parse_time_spec_to_seconds (some spec) with
  | .error e => .error e
  | .ok secs =>
    if secs.le_zero then .error "Interval must be greater than 0 seconds."
    else .ok { seconds := secs }

/-- Duration value object: seconds, or none for the infinite sentinel. -/
structure Duration where
  seconds : Option PyFloat
deriving DecidableEq

/-- Duration.none(): the infinite duration sentinel. -/
def Duration.none : Duration := { seconds := Option.none }

/-- Duration.is_infinite. -/
def Duration.is_infinite (d : Duration) : Bool := d.seconds.isNone

/-- Duration.from_spec: a missing spec maps to the infinite sentinel;
otherwise parse and reject nonpositive values. -/
def Duration.from_spec (spec : Option (List Char)) : Except String Duration :=
  match spec with
  | Option.none => .ok Duration.none
  | some sp =>
    match parse_time_spec_to_seconds (some sp) with
    | .error e => .error e
    | .ok secs =>
      if secs.le_zero then .error "Duration must be greater than 0 seconds."
      else .ok { seconds := some secs }

/-- Amplitude value object: pixel step. -/
structure Amplitude where
  pixels : Int
deriving DecidableEq

/-! ## State store and lifecycle protocol — src/mouse_jiggler/core/service.py
with the filesystem semantics of src/adapters/fs_repo.py.

The store holds the two independent pieces of persisted state: the
jiggler.pid record and the presence-only STOP marker. Probe answers and the
concurrent worker's writes are supplied as oracles, one observation per
read, matching the absence of any transactional guarantee between the two
files. -/

/-- Persisted state: jiggler.pid (absent, or a stored integer) and the STOP
marker (present or absent). -/
structure Store where
  pid : Option Int
  stop : Bool
deriving DecidableEq

/-- StateRepo.write_pid: overwrite the record. -/
def write_pid (p : Int) (st : Store) : Store := { st with pid := some p }

/-- StateRepo.clear_pid: remove the record, silently if absent. -/
def clear_pid (st : Store) : Store := { st with pid := Option.none }

/-- StateRepo.set_stop: create the marker. -/
def set_stop (st : Store) : Store := { st with stop := true }

/-- StateRepo.clear_stop: remove the marker, silently if absent. -/
def clear_stop (st : Store) : Store := { st with stop := false }

/-- Python truthiness of the guard `pid and probe.is_alive(pid)`: a missing
record is falsy, and so is a stored pid equal to 0. -/
def pid_truthy_alive (alive : Int → Bool) : Option Int → Bool
  | Option.none => false
  | some p => p != 0 && alive p

/-- How a start invocation ends: sys.exit(1) on the already-running branch,
a confirmed pid within the polling window, or the unconfirmed warning. -/
inductive StartOutcome
  | alreadyRunning
  | confirmed (pid : Int)
  | unconfirmed
deriving DecidableEq

/-- Process exit status of the start command. -/
def StartOutcome.exit_code : StartOutcome → Nat
  | .alreadyRunning => 1
  | _ => 0

/-- The confirmation poll at the end of start: up to 20 attempts, each
reading the shared store (poll_pid k) and probing (poll_alive k), with the
same truthiness guard as the entry check. -/
def start_poll (poll_pid : Nat → Option Int) (poll_alive : Nat → Int → Bool) :
    Nat → Nat → StartOutcome
  | 0, _ => .unconfirmed
  | n + 1, k =>
    match poll_pid k with
    | some p =>
      if p != 0 && poll_alive k p then .confirmed p
      else start_poll poll_pid poll_alive n (k + 1)
    | Option.none => start_poll poll_pid poll_alive n (k + 1)

/-- JigglerService.start: refuse (exit 1) when a truthy recorded pid probes
alive and force is not given; with force, clear the record first; then
spawn and poll for confirmation. Returns the store as mutated by start
itself together with the outcome. -/
def start (alive : Int → Bool) (poll_pid : Nat → Option Int)
    (poll_alive : Nat → Int → Bool) (force : Bool) (st : Store) :
    Store × StartOutcome :=
  if pid_truthy_alive alive st.pid then
    if !force then (st, .alreadyRunning)
    else (clear_pid st, start_poll poll_pid poll_alive 20 0)
  else (st, start_poll poll_pid poll_alive 20 0)

/-- What status prints. -/
inductive StatusReport
  | running (pid : Int)
  | notRunning
deriving DecidableEq

/-- JigglerService.status: read the record, probe it, print; the code
performs no store mutation on any branch. -/
def status (alive : Int → Bool) (st : Store) : Store × StatusReport :=
  match st.pid with
  | some p => if p != 0 && alive p then (st, .running p) else (st, .notRunning)
  | Option.none => (st, .notRunning)

/-- How a stop invocation ends. -/
inductive StopOutcome
  | notRunning
  | stopped
  | stillAlive
deriving DecidableEq

/-- The 50-attempt wait inside stop: some k when the probe first reports the
pid gone at attempt k, none when it stays alive through every attempt. -/
def stop_poll (poll_alive : Nat → Int → Bool) (p : Int) : Nat → Nat → Option Nat
  | 0, _ => Option.none
  | n + 1, k => if !poll_alive k p then some k else stop_poll poll_alive p n (k + 1)

/-- JigglerService.stop: a falsy or dead recorded pid clears both records
and reports not running; otherwise set the stop marker and poll, clearing
both records on disappearance, or leaving the marker set on timeout. -/
def stop (alive : Int → Bool) (poll_alive : Nat → Int → Bool) (st : Store) :
    Store × StopOutcome :=
  match st.pid with
  | Option.none => (clear_stop (clear_pid st), .notRunning)
  | some p =>
    if p == 0 || !alive p then (clear_stop (clear_pid st), .notRunning)
    else
      let st1 := set_stop st
      match stop_poll poll_alive p 50 0 with
      | some _ => (clear_stop (clear_pid st1), .stopped)
      | Option.none => (st1, .stillAlive)

/-- Observable actions of the worker's run invocation, in program order. -/
inductive Event
  | write_pid_ev (p : Int)
  | clear_stop_ev
  | move_ev (dx dy : Int)
  | sleep_ev (q : ℚ)
deriving DecidableEq

/-- The external world as one run invocation observes it: has_stop_at k is
the k-th has_stop() reading of the shared store (another process may create
the marker at any moment), now_at k the k-th clock.now() reading. -/
structure RunEnv where
  has_stop_at : Nat → Bool
  now_at : Nat → ℚ

/-- The guard `deadline and now >= deadline`, including Python float
truthiness: a deadline equal to 0.0 is falsy and never fires. -/
def deadline_hit : Option ℚ → ℚ → Bool
  | Option.none, _ => false
  | some d, now => d != 0 && decide (d ≤ now)

/-- The inner sleep loop of run, fuel-indexed (the fuel is a modelling
artifact; every property is proved for all fuels). Returns the emitted
sleep events and, on normal loop exit, the next unused observation indices
(none when fuel ran out). Each iteration re-checks the stop marker and the
deadline, then sleeps min(0.2s, remaining). -/
def sleep_quanta (env : RunEnv) (deadline : Option ℚ) :
    Nat → ℚ → Nat → Nat → List Event × Option (Nat × Nat)
  | 0, _, _, _ => ([], Option.none)
  | fuel + 1, remaining, s, t =>
    if remaining ≤ 0 then ([], some (s, t))
    else if env.has_stop_at s then ([], some (s + 1, t))
    else if deadline_hit deadline (env.now_at t) then ([], some (s + 1, t + 1))
    else
      let q : ℚ := if remaining > 1/5 then 1/5 else remaining
      let r := sleep_quanta env deadline fuel (remaining - q) (s + 1) (t + 1)
      (Event.sleep_ev q :: r.1, r.2)

/-- The main loop of run: check stop marker and deadline, apply one pattern
delta through the mouse port (the code swallows transient move errors, so
the move never changes control flow), sleep the interval in quanta, then
re-check stop and deadline before the next iteration. Returns the emitted
events and whether the loop exited (false only when fuel ran out). -/
def run_loop (env : RunEnv) (pattern : Nat → Int → Int × Int) (amp : Int)
    (interval : ℚ) (deadline : Option ℚ) :
    Nat → Nat → Nat → Nat → List Event × Bool
  | 0, _, _, _ => ([], false)
  | fuel + 1, step, s, t =>
    if env.has_stop_at s then ([], true)
    else if deadline_hit deadline (env.now_at t) then ([], true)
    else
      let d := pattern step amp
      let inner := sleep_quanta env deadline (fuel + 1) interval (s + 1) (t + 1)
      match inner.2 with
      | Option.none => (Event.move_ev d.1 d.2 :: inner.1, false)
      | some (s2, t2) =>
        if env.has_stop_at s2 then (Event.move_ev d.1 d.2 :: inner.1, true)
        else if deadline_hit deadline (env.now_at t2) then
          (Event.move_ev d.1 d.2 :: inner.1, true)
        else
          let rest := run_loop env pattern amp interval deadline fuel (step + 1) (s2 + 1) (t2 + 1)
          (Event.move_ev d.1 d.2 :: (inner.1 ++ rest.1), rest.2)

/-- The cleanup closure run installs as the SIGINT/SIGTERM handler and also
calls from its finally block: clear_pid, then clear_stop, then exit. -/
def cleanup (st : Store) : Store := clear_stop (clear_pid st)

/-- JigglerConfig, as run consumes it: the interval seconds, the amplitude
pixels, and the optional duration seconds. The service claims quantify
over numeric (finite rational) configurations, per the Interval, Amplitude
and Duration invariants of the data model. -/
structure JigglerConfig where
  interval_seconds : ℚ
  amplitude_pixels : Int
  duration_seconds : Option ℚ

/-- JigglerService.run: write own pid and clear any leftover stop marker,
compute the deadline (consuming one now() reading when the duration is
finite), run the loop, and on every terminating path apply cleanup. The
event trace is returned even when fuel runs out; the final store only for
terminating executions. -/
def run (env : RunEnv) (pattern : Nat → Int → Int × Int) (cfg : JigglerConfig)
    (self_pid : Int) (fuel : Nat) (st0 : Store) : List Event × Option Store :=
  let st1 := clear_stop (write_pid self_pid st0)
  let dt : Option ℚ × Nat :=
    match cfg.duration_seconds with
    | Option.none => (Option.none, 0)
    | some dur => (some (env.now_at 0 + dur), 1)
  let lp := run_loop env pattern cfg.amplitude_pixels cfg.interval_seconds dt.1 fuel 0 0 dt.2
  (Event.write_pid_ev self_pid :: Event.clear_stop_ev :: lp.1,
   if lp.2 then some (cleanup st1) else Option.none)

/-- Test fixture: a world whose stop marker is observed present at every
poll, clock frozen at 0. -/
def env_stop : RunEnv := { has_stop_at := fun _ => true, now_at := fun _ => 0 }

/-- Test fixture: a world that never observes a stop marker, clock frozen
at 1. -/
def env_free : RunEnv := { has_stop_at := fun _ => false, now_at := fun _ => 1 }

/-- Test fixture: 1s interval, amplitude 1, no deadline. -/
def cfg1 : JigglerConfig :=
  { interval_seconds := 1, amplitude_pixels := 1, duration_seconds := Option.none }

/-! ## Theorems -/

/-- C6: for every amplitude A ≥ 1 and every starting step s, the square
pattern's deltas over the four consecutive steps s..s+3 sum to (0, 0). -/
theorem square_cycle_net_zero (A : Int) (s : Nat) (hA : 1 ≤ A) :
    (SquarePattern.next_delta s A).1 + (SquarePattern.next_delta (s + 1) A).1
      + (SquarePattern.next_delta (s + 2) A).1 + (SquarePattern.next_delta (s + 3) A).1 = 0 ∧
    (SquarePattern.next_delta s A).2 + (SquarePattern.next_delta (s + 1) A).2
      + (SquarePattern.next_delta (s + 2) A).2 + (SquarePattern.next_delta (s + 3) A).2 = 0 := by
  have hcl : ¬ (A < 1) := by omega
  have h4 : s % 4 = 0 ∨ s % 4 = 1 ∨ s % 4 = 2 ∨ s % 4 = 3 := by omega
  rcases h4 with h | h | h | h <;>
    simp [SquarePattern.next_delta, hcl, Nat.add_mod, h]

/-- C6 witness: the cycle sum at amplitude 2 starting from step 5. -/
theorem square_cycle_net_zero_witness :
    (SquarePattern.next_delta 5 2).1 + (SquarePattern.next_delta 6 2).1
      + (SquarePattern.next_delta 7 2).1 + (SquarePattern.next_delta 8 2).1 = 0 ∧
    (SquarePattern.next_delta 5 2).2 + (SquarePattern.next_delta 6 2).2
      + (SquarePattern.next_delta 7 2).2 + (SquarePattern.next_delta 8 2).2 = 0 :=
  square_cycle_net_zero 2 5 (by norm_num)

/-- C7: parse_time maps valid specs by exact unit scaling: 500ms to 0.5s,
2s to 2s, 3m to 180s, 1h to 3600s, and a bare 5 to 5 seconds. -/
theorem parse_time_unit_scaling :
    parse_time_spec_to_seconds (some "500ms".data) = .ok (PyFloat.finite (1/2)) ∧
    parse_time_spec_to_seconds (some "2s".data) = .ok (PyFloat.finite 2) ∧
    parse_time_spec_to_seconds (some "3m".data) = .ok (PyFloat.finite 180) ∧
    parse_time_spec_to_seconds (some "1h".data) = .ok (PyFloat.finite 3600) ∧
    parse_time_spec_to_seconds (some "5".data) = .ok (PyFloat.finite 5) := by
  refine ⟨?_, ?_, ?_, ?_, ?_⟩ <;> with_unfolding_all rfl

/-- C8 counterexample: the spec nan parses to NaN via float("nan"); NaN
fails the `secs <= 0` guard (False for NaN), so Interval.from_spec and
Duration.from_spec both succeed, constructing values whose seconds are NaN
— and NaN is not a positive value. -/
theorem interval_from_spec_nan_accepted :
    Interval.from_spec "nan".data = .ok { seconds := PyFloat.nan } ∧
    Duration.from_spec (some "nan".data) = .ok { seconds := some PyFloat.nan } ∧
    PyFloat.nan.pos = false := by
  refine ⟨?_, ?_, rfl⟩ <;> with_unfolding_all rfl

/-- C8 amended: every Interval accepted by from_spec, and every finite
Duration accepted by from_spec, fails the float test seconds <= 0, and
whenever the parsed value is finite it is strictly positive; from_spec with
no spec (None) yields the distinct infinite sentinel; any spec whose parse
satisfies the <= 0 float test (a finite zero or negative value, or -inf)
raises InvalidSpec. A spec parsing to NaN is the exception: it is accepted
with NaN (non-positive) seconds, per the counterexample. -/
theorem interval_duration_positive :
    (∀ spec i, Interval.from_spec spec = .ok i →
        i.seconds.le_zero = false ∧ ∀ q, i.seconds = PyFloat.finite q → 0 < q) ∧
    (∀ spec d x, Duration.from_spec (some spec) = .ok d → d.seconds = some x →
        x.le_zero = false ∧ ∀ q, x = PyFloat.finite q → 0 < q) ∧
    Duration.from_spec Option.none = .ok Duration.none ∧
    (∀ spec x, parse_time_spec_to_seconds (some spec) = .ok x → x.le_zero = true →
      (∃ e, Interval.from_spec spec = .error e) ∧
      (∃ e, Duration.from_spec (some spec) = .error e)) := by
  refine ⟨?_, ?_, rfl, ?_⟩
  · intro spec i h
    simp only [Interval.from_spec] at h
    cases hp : parse_time_spec_to_seconds (some spec) with
    | error e => rw [hp] at h; exact absurd h (by simp)
    | ok secs =>
      rw [hp] at h
      dsimp only at h
      cases hsz : secs.le_zero with
      | true => rw [hsz] at h; simp at h
      | false =>
        rw [hsz] at h
        simp only [Bool.false_eq_true, if_false, Except.ok.injEq] at h
        subst h
        refine ⟨hsz, ?_⟩
        intro q hq
        have hq2 : secs = PyFloat.finite q := hq
        rw [hq2] at hsz
        simp only [PyFloat.le_zero, decide_eq_false_iff_not, not_le] at hsz
        exact hsz
  · intro spec d x h hx
    simp only [Duration.from_spec] at h
    cases hp : parse_time_spec_to_seconds (some spec) with
    | error e => rw [hp] at h; exact absurd h (by simp)
    | ok secs =>
      rw [hp] at h
      dsimp only at h
      cases hsz : secs.le_zero with
      | true => rw [hsz] at h; simp at h
      | false =>
        rw [hsz] at h
        simp only [Bool.false_eq_true, if_false, Except.ok.injEq] at h
        subst h
        have hx2 : some secs = some x := hx
        rw [Option.some.injEq] at hx2
        subst hx2
        refine ⟨hsz, ?_⟩
        intro q hq
        rw [hq] at hsz
        simp only [PyFloat.le_zero, decide_eq_false_iff_not, not_le] at hsz
        exact hsz
  · intro spec x hp hx
    constructor
    · exact ⟨"Interval must be greater than 0 seconds.",
        by simp only [Interval.from_spec]; rw [hp]; dsimp only; rw [hx]; simp⟩
    · exact ⟨"Duration must be greater than 0 seconds.",
        by simp only [Duration.from_spec]; rw [hp]; dsimp only; rw [hx]; simp⟩

/-- C8 amended witness: a 2-second interval is accepted with positive
finite seconds, and the spec 0 is rejected by both constructors. -/
theorem interval_duration_positive_witness :
    (PyFloat.finite 2).le_zero = false ∧
    (0 : ℚ) < 2 ∧
    (∃ e, Interval.from_spec "0".data = .error e) ∧
    (∃ e, Duration.from_spec (some "0".data) = .error e) := by
  refine ⟨(interval_duration_positive.1 "2s".data { seconds := PyFloat.finite 2 }
      (by with_unfolding_all rfl)).1,
    (interval_duration_positive.1 "2s".data { seconds := PyFloat.finite 2 }
      (by with_unfolding_all rfl)).2 2 rfl,
    (interval_duration_positive.2.2.2 "0".data (PyFloat.finite 0)
      (by with_unfolding_all rfl) (by with_unfolding_all rfl)).1,
    (interval_duration_positive.2.2.2 "0".data (PyFloat.finite 0)
      (by with_unfolding_all rfl) (by with_unfolding_all rfl)).2⟩

/-- Every entry of the direction table has both components of magnitude at
most 1 and at least one nonzero component. -/
theorem dirs_getD_components (k : Nat) :
    |(RandomPattern.dirs.getD (k % RandomPattern.dirs.length) (0, 0)).1| ≤ 1 ∧
    |(RandomPattern.dirs.getD (k % RandomPattern.dirs.length) (0, 0)).2| ≤ 1 ∧
    ((RandomPattern.dirs.getD (k % RandomPattern.dirs.length) (0, 0)).1 ≠ 0 ∨
     (RandomPattern.dirs.getD (k % RandomPattern.dirs.length) (0, 0)).2 ≠ 0) := by
  have h8 : k % RandomPattern.dirs.length = 0 ∨ k % RandomPattern.dirs.length = 1 ∨
      k % RandomPattern.dirs.length = 2 ∨ k % RandomPattern.dirs.length = 3 ∨
      k % RandomPattern.dirs.length = 4 ∨ k % RandomPattern.dirs.length = 5 ∨
      k % RandomPattern.dirs.length = 6 ∨ k % RandomPattern.dirs.length = 7 := by
    have : k % RandomPattern.dirs.length < 8 := Nat.mod_lt _ (by decide)
    omega
  rcases h8 with h | h | h | h | h | h | h | h <;> rw [h] <;> decide

/-- The magnitude 1 + step % amplitude lies in [1, amplitude] once the
amplitude is at least 1. -/
theorem mag_bounds (step : Nat) (amplitude : Int) (hA : 1 ≤ amplitude) :
    1 ≤ 1 + (step : Int) % amplitude ∧ 1 + (step : Int) % amplitude ≤ amplitude := by
  have h1 := Int.emod_nonneg (step : Int) (by omega : amplitude ≠ 0)
  have h2 := Int.emod_lt_of_pos (step : Int) (by omega : (0 : Int) < amplitude)
  omega

/-- The output of RandomPattern.next_delta is the chosen direction scaled
by the magnitude, possibly negated by the compensation branch. -/
theorem random_next_delta_cases (self : RandomPattern) (step : Nat) (amplitude : Int) :
    RandomPattern.next_delta self step amplitude
      = ((RandomPattern.dirs.getD
            ((step * 1103515245 + 12345) % 2 ^ 31 % RandomPattern.dirs.length) (0, 0)).1
           * (1 + (step : Int) % (if amplitude < 1 then 1 else amplitude)),
         (RandomPattern.dirs.getD
            ((step * 1103515245 + 12345) % 2 ^ 31 % RandomPattern.dirs.length) (0, 0)).2
           * (1 + (step : Int) % (if amplitude < 1 then 1 else amplitude))) ∨
    RandomPattern.next_delta self step amplitude
      = (-((RandomPattern.dirs.getD
            ((step * 1103515245 + 12345) % 2 ^ 31 % RandomPattern.dirs.length) (0, 0)).1
           * (1 + (step : Int) % (if amplitude < 1 then 1 else amplitude))),
         -((RandomPattern.dirs.getD
            ((step * 1103515245 + 12345) % 2 ^ 31 % RandomPattern.dirs.length) (0, 0)).2
           * (1 + (step : Int) % (if amplitude < 1 then 1 else amplitude)))) := by
  unfold RandomPattern.next_delta
  split
  · split
    · dsimp only
      split
      · right; rfl
      · left; rfl
    · left; rfl
  · split
    · dsimp only
      split
      · right; rfl
      · left; rfl
    · left; rfl

/-- Negation preserves an absolute-value bound. -/
theorem abs_neg_le (x A : Int) (h : |x| ≤ A) : |(-x)| ≤ A := by rwa [abs_neg]

/-- A pair with a nonzero first component is not (0, 0). -/
theorem pair_ne_zero_of_left {a b : Int} (h : a ≠ 0) : (a, b) ≠ (0, 0) := by
  intro hab
  exact h (congrArg Prod.fst hab)

/-- A pair with a nonzero second component is not (0, 0). -/
theorem pair_ne_zero_of_right {a b : Int} (h : b ≠ 0) : (a, b) ≠ (0, 0) := by
  intro hab
  exact h (congrArg Prod.snd hab)

/-- C9: RandomPattern.next_delta is a pure function of (step, amplitude):
within any sequence of calls, two calls with the same arguments produce the
same output regardless of position or of the calls between them; and for
amplitude ≥ 1 each output component has magnitude at most the amplitude. -/
theorem random_pattern_deterministic_and_bounded :
    (∀ (self : RandomPattern) (calls : List (Nat × Int)) (i j : Nat) (c : Nat × Int),
        calls.get? i = some c → calls.get? j = some c →
        (RandomPattern.delta_calls self calls).get? i
          = (RandomPattern.delta_calls self calls).get? j) ∧
    (∀ (self : RandomPattern) (step : Nat) (amplitude : Int), 1 ≤ amplitude →
        |(self.next_delta step amplitude).1| ≤ amplitude ∧
        |(self.next_delta step amplitude).2| ≤ amplitude) := by
  constructor
  · intro self calls i j c hi hj
    simp only [RandomPattern.delta_calls, List.get?_map, hi, hj]
  · intro self step amplitude hA
    have hif : (if amplitude < 1 then 1 else amplitude) = amplitude := if_neg (by omega)
    obtain ⟨hm1, hm2⟩ := mag_bounds step amplitude hA
    obtain ⟨hd1, hd2, _⟩ := dirs_getD_components ((step * 1103515245 + 12345) % 2 ^ 31)
    have habs : ∀ c : Int, |c| ≤ 1 →
        |c * (1 + (step : Int) % amplitude)| ≤ amplitude := by
      intro c hc
      rw [abs_mul]
      calc |c| * |1 + (step : Int) % amplitude|
          ≤ 1 * |1 + (step : Int) % amplitude| :=
            mul_le_mul_of_nonneg_right hc (abs_nonneg _)
        _ = |1 + (step : Int) % amplitude| := one_mul _
        _ = 1 + (step : Int) % amplitude := abs_of_pos (by omega)
        _ ≤ amplitude := hm2
    rcases random_next_delta_cases self step amplitude with h | h <;> rw [h, hif]
    · exact ⟨habs _ hd1, habs _ hd2⟩
    · exact ⟨abs_neg_le _ _ (habs _ hd1), abs_neg_le _ _ (habs _ hd2)⟩

/-- C9 witness: two identical calls inside one call sequence agree, and the
output at step 3, amplitude 2 is bounded by 2 on each axis. -/
theorem random_pattern_deterministic_and_bounded_witness :
    (RandomPattern.delta_calls {} [(3, 2), (5, 1), (3, 2)]).get? 0
      = (RandomPattern.delta_calls {} [(3, 2), (5, 1), (3, 2)]).get? 2 ∧
    |(RandomPattern.next_delta {} 3 2).1| ≤ 2 ∧
    |(RandomPattern.next_delta {} 3 2).2| ≤ 2 := by
  refine ⟨random_pattern_deterministic_and_bounded.1 {} [(3, 2), (5, 1), (3, 2)] 0 2 (3, 2) rfl rfl,
    (random_pattern_deterministic_and_bounded.2 {} 3 2 (by norm_num)).1,
    (random_pattern_deterministic_and_bounded.2 {} 3 2 (by norm_num)).2⟩

/-- C10: for every step and every integer amplitude (values below 1 are
clamped to 1, not rejected), both patterns return a delta with at least one
nonzero coordinate, so every loop iteration moves the pointer. -/
theorem patterns_always_move (self : RandomPattern) (step : Nat) (amplitude : Int) :
    SquarePattern.next_delta step amplitude ≠ (0, 0) ∧
    RandomPattern.next_delta self step amplitude ≠ (0, 0) := by
  have hcl : 1 ≤ (if amplitude < 1 then 1 else amplitude) := by
    split <;> omega
  constructor
  · have h4 : step % 4 = 0 ∨ step % 4 = 1 ∨ step % 4 = 2 ∨ step % 4 = 3 := by omega
    rcases h4 with h | h | h | h <;>
      simp [SquarePattern.next_delta, h, Prod.ext_iff] <;> omega
  · obtain ⟨hm1, _⟩ := mag_bounds step _ hcl
    obtain ⟨_, _, hnz⟩ := dirs_getD_components ((step * 1103515245 + 12345) % 2 ^ 31)
    have hmul : ∀ c : Int, c ≠ 0 →
        c * (1 + (step : Int) % (if amplitude < 1 then 1 else amplitude)) ≠ 0 := by
      intro c hc
      exact mul_ne_zero hc (by omega)
    rcases random_next_delta_cases self step amplitude with h | h <;> rw [h] <;>
      rcases hnz with hnz | hnz
    · exact pair_ne_zero_of_left (hmul _ hnz)
    · exact pair_ne_zero_of_right (hmul _ hnz)
    · exact pair_ne_zero_of_left (neg_ne_zero.mpr (hmul _ hnz))
    · exact pair_ne_zero_of_right (neg_ne_zero.mpr (hmul _ hnz))

/-- C1: whenever run terminates — by observing the stop marker, by reaching
the deadline, or via a signal routed to the installed cleanup handler —
both the pid record and the stop marker are cleared before the worker
exits. -/
theorem run_clears_state_on_exit :
    (∀ env pattern cfg self_pid fuel st0 st,
        (run env pattern cfg self_pid fuel st0).2 = some st →
        st.pid = Option.none ∧ st.stop = false) ∧
    (∀ st : Store, (cleanup st).pid = Option.none ∧ (cleanup st).stop = false) := by
  constructor
  · intro env pattern cfg self_pid fuel st0 st h
    simp only [run] at h
    split at h
    · cases h
      exact ⟨rfl, rfl⟩
    · cases h
  · intro st
    exact ⟨rfl, rfl⟩

/-- C1 witness: a run that observes the stop marker at once terminates with
both records cleared. -/
theorem run_clears_state_on_exit_witness :
    ({ pid := Option.none, stop := false } : Store).pid = Option.none ∧
    ({ pid := Option.none, stop := false } : Store).stop = false :=
  run_clears_state_on_exit.1 env_stop SquarePattern.next_delta cfg1 7 1
    { pid := some 3, stop := true } { pid := Option.none, stop := false }
    (by with_unfolding_all rfl)

/-- C2 counterexample: with pid 7 recorded and the probe reporting every
pid dead, status leaves the stale record in place instead of clearing it. -/
theorem status_keeps_stale_pid :
    ((status (fun _ => false) { pid := some 7, stop := false }).1).pid ≠ Option.none := by
  decide

/-- C2 amended: only stop is self-healing: it clears both records whenever
the recorded pid probes dead. status performs no store mutation at all, and
start without force leaves a stale (dead) record in place, proceeding to
spawn instead (the worker overwrites the record later). -/
theorem stale_pid_self_healing :
    (∀ alive poll_alive st p, st.pid = some p → alive p = false →
        (stop alive poll_alive st).1 = { pid := Option.none, stop := false }) ∧
    (∀ alive st, (status alive st).1 = st) ∧
    (∀ alive poll_pid poll_alive st p, st.pid = some p → alive p = false →
        (start alive poll_pid poll_alive false st).1 = st) := by
  refine ⟨?_, ?_, ?_⟩
  · intro alive poll_alive st p hp ha
    simp [stop, hp, ha, clear_pid, clear_stop]
  · intro alive st
    rcases hst : st.pid with _ | p
    · simp [status, hst]
    · simp only [status, hst]
      split <;> rfl
  · intro alive poll_pid poll_alive st p hp ha
    simp [start, pid_truthy_alive, hp, ha]

/-- C2 amended witness: stop heals the stale record at pid 7, status and
start leave the store untouched. -/
theorem stale_pid_self_healing_witness :
    (stop (fun _ => false) (fun _ _ => false) { pid := some 7, stop := true }).1
        = { pid := Option.none, stop := false } ∧
    (status (fun _ => false) { pid := some 7, stop := false }).1
        = { pid := some 7, stop := false } ∧
    (start (fun _ => false) (fun _ => Option.none) (fun _ _ => false) false
        { pid := some 7, stop := false }).1 = { pid := some 7, stop := false } :=
  ⟨stale_pid_self_healing.1 (fun _ => false) (fun _ _ => false)
      { pid := some 7, stop := true } 7 rfl rfl,
   stale_pid_self_healing.2.1 (fun _ => false) { pid := some 7, stop := false },
   stale_pid_self_healing.2.2 (fun _ => false) (fun _ => Option.none) (fun _ _ => false)
      { pid := some 7, stop := false } 7 rfl rfl⟩

/-- C3 counterexample: a recorded pid of 0 that the probe reports alive is
falsy in the guard `pid and is_alive(pid)`, so start without force does not
refuse: its outcome is not the already-running exit and its exit status is
not 1. -/
theorem start_pid_zero_not_refused :
    (start (fun _ => true) (fun _ => Option.none) (fun _ _ => false) false
        { pid := some 0, stop := false }).2 ≠ StartOutcome.alreadyRunning ∧
    ((start (fun _ => true) (fun _ => Option.none) (fun _ _ => false) false
        { pid := some 0, stop := false }).2).exit_code ≠ 1 := by
  constructor <;> decide

/-- C3 amended: for every state recording a nonzero pid that the probe
reports alive, start without force reports already running, exits with
status 1, and leaves the pid record and stop marker exactly as they
were. -/
theorem start_refuses_when_alive (alive : Int → Bool) (poll_pid : Nat → Option Int)
    (poll_alive : Nat → Int → Bool) (st : Store) (p : Int)
    (hp : st.pid = some p) (hz : p ≠ 0) (ha : alive p = true) :
    (start alive poll_pid poll_alive false st).1 = st ∧
    (start alive poll_pid poll_alive false st).2 = StartOutcome.alreadyRunning ∧
    ((start alive poll_pid poll_alive false st).2).exit_code = 1 := by
  have htruthy : pid_truthy_alive alive st.pid = true := by
    rw [hp]
    simp [pid_truthy_alive, ha, hz]
  simp [start, htruthy, StartOutcome.exit_code]

/-- C3 amended witness: start refuses at a live pid 7 and mutates nothing,
with the stop marker present. -/
theorem start_refuses_when_alive_witness :
    (start (fun _ => true) (fun _ => Option.none) (fun _ _ => false) false
        { pid := some 7, stop := true }).1 = { pid := some 7, stop := true } ∧
    (start (fun _ => true) (fun _ => Option.none) (fun _ _ => false) false
        { pid := some 7, stop := true }).2 = StartOutcome.alreadyRunning ∧
    ((start (fun _ => true) (fun _ => Option.none) (fun _ _ => false) false
        { pid := some 7, stop := true }).2).exit_code = 1 :=
  start_refuses_when_alive (fun _ => true) (fun _ => Option.none) (fun _ _ => false)
    { pid := some 7, stop := true } 7 rfl (by decide) rfl

/-- C4: every run trace begins with the pid registration followed by the
stop-marker clear, and every mouse move sits strictly after both. -/
theorem run_writes_pid_before_moves (env : RunEnv) (pattern : Nat → Int → Int × Int)
    (cfg : JigglerConfig) (self_pid : Int) (fuel : Nat) (st0 : Store) :
    (∃ rest, (run env pattern cfg self_pid fuel st0).1
        = Event.write_pid_ev self_pid :: Event.clear_stop_ev :: rest) ∧
    (∀ i dx dy, ((run env pattern cfg self_pid fuel st0).1).get? i
        = some (Event.move_ev dx dy) → 2 ≤ i) := by
  have hr : ∃ rest, (run env pattern cfg self_pid fuel st0).1
      = Event.write_pid_ev self_pid :: Event.clear_stop_ev :: rest := ⟨_, rfl⟩
  refine ⟨hr, ?_⟩
  intro i dx dy h
  obtain ⟨rest, he⟩ := hr
  rw [he] at h
  match i with
  | 0 => simp at h
  | 1 => simp at h
  | n + 2 => omega

/-- C4 witness: in a one-iteration run the first move sits at index 2, after
the pid write and the stop clear. -/
theorem run_writes_pid_before_moves_witness :
    (∃ rest, (run env_free SquarePattern.next_delta cfg1 7 1
        { pid := Option.none, stop := false }).1
        = Event.write_pid_ev 7 :: Event.clear_stop_ev :: rest) ∧ 2 ≤ 2 :=
  ⟨(run_writes_pid_before_moves env_free SquarePattern.next_delta cfg1 7 1
      { pid := Option.none, stop := false }).1,
   (run_writes_pid_before_moves env_free SquarePattern.next_delta cfg1 7 1
      { pid := Option.none, stop := false }).2 2 1 0 (by with_unfolding_all rfl)⟩

/-- C10 witness: both patterns move at step 5, amplitude 2. -/
theorem patterns_always_move_witness :
    SquarePattern.next_delta 5 2 ≠ (0, 0) ∧
    RandomPattern.next_delta {} 5 2 ≠ (0, 0) :=
  patterns_always_move {} 5 2

/-- Every sleep the inner loop emits is positive and at most one quantum
(0.2s = 1/5). -/
theorem sleep_quanta_sleep_bound (env : RunEnv) (deadline : Option ℚ) :
    ∀ fuel remaining s t q,
      Event.sleep_ev q ∈ (sleep_quanta env deadline fuel remaining s t).1 →
      0 < q ∧ q ≤ 1/5 := by
  intro fuel
  induction fuel with
  | zero =>
    intro remaining s t q h
    simp [sleep_quanta] at h
  | succ n ih =>
    intro remaining s t q h
    simp only [sleep_quanta] at h
    split at h
    · simp at h
    · split at h
      · simp at h
      · split at h
        · simp at h
        · rename_i hrem hstop hdl
          rw [List.mem_cons] at h
          rcases h with h | h
          · have hq : q = if remaining > 1/5 then (1/5 : ℚ) else remaining := by
              injection h
            rw [hq]
            split
            · norm_num
            · rename_i hle
              constructor
              · exact lt_of_not_ge (fun hc => hrem (by linarith))
              · linarith [not_lt.mp hle]
          · exact ih _ _ _ q h

/-- Every sleep the outer loop emits is positive and at most one quantum. -/
theorem run_loop_sleep_bound (env : RunEnv) (pattern : Nat → Int → Int × Int)
    (amp : Int) (interval : ℚ) (deadline : Option ℚ) :
    ∀ fuel step s t q,
      Event.sleep_ev q ∈ (run_loop env pattern amp interval deadline fuel step s t).1 →
      0 < q ∧ q ≤ 1/5 := by
  intro fuel
  induction fuel with
  | zero =>
    intro step s t q h
    simp [run_loop] at h
  | succ n ih =>
    intro step s t q h
    simp only [run_loop] at h
    split at h
    · simp at h
    · split at h
      · simp at h
      · split at h
        · rw [List.mem_cons] at h
          rcases h with h | h
          · simp at h
          · exact sleep_quanta_sleep_bound env deadline _ _ _ _ q h
        · split at h
          · rw [List.mem_cons] at h
            rcases h with h | h
            · simp at h
            · exact sleep_quanta_sleep_bound env deadline _ _ _ _ q h
          · split at h
            · rw [List.mem_cons] at h
              rcases h with h | h
              · simp at h
              · exact sleep_quanta_sleep_bound env deadline _ _ _ _ q h
            · rw [List.mem_cons] at h
              rcases h with h | h
              · simp at h
              · rw [List.mem_append] at h
                rcases h with h | h
                · exact sleep_quanta_sleep_bound env deadline _ _ _ _ q h
                · exact ih _ _ _ q h

/-- C5: the waiting phase sleeps only in quanta that are positive and at
most 0.2s; the stop marker and the deadline are re-checked between quanta:
a stop observation ends the inner sleep loop at once with no further sleep,
and so does a nonzero deadline that has passed; at the loop head, a stop
observation or a passed nonzero deadline makes the outer loop exit with no
further movement. Hence a stop or deadline is honored within one quantum
rather than only after a full interval. -/
theorem run_sleeps_in_responsive_quanta :
    (∀ env pattern cfg self_pid fuel st0 q,
        Event.sleep_ev q ∈ (run env pattern cfg self_pid fuel st0).1 →
        0 < q ∧ q ≤ 1/5) ∧
    (∀ (env : RunEnv) deadline fuel remaining s t,
        env.has_stop_at s = true → 0 < remaining →
        sleep_quanta env deadline (fuel + 1) remaining s t = ([], some (s + 1, t))) ∧
    (∀ (env : RunEnv) (d : ℚ) fuel remaining s t,
        env.has_stop_at s = false → d ≠ 0 → d ≤ env.now_at t → 0 < remaining →
        sleep_quanta env (some d) (fuel + 1) remaining s t = ([], some (s + 1, t + 1))) ∧
    (∀ (env : RunEnv) pattern amp interval deadline fuel step s t,
        env.has_stop_at s = true →
        run_loop env pattern amp interval deadline (fuel + 1) step s t = ([], true)) ∧
    (∀ (env : RunEnv) pattern amp interval (d : ℚ) fuel step s t,
        env.has_stop_at s = false → d ≠ 0 → d ≤ env.now_at t →
        run_loop env pattern amp interval (some d) (fuel + 1) step s t = ([], true)) := by
  refine ⟨?_, ?_, ?_, ?_, ?_⟩
  · intro env pattern cfg self_pid fuel st0 q h
    simp only [run] at h
    rw [List.mem_cons] at h
    rcases h with h | h
    · simp at h
    rw [List.mem_cons] at h
    rcases h with h | h
    · simp at h
    · exact run_loop_sleep_bound env pattern _ _ _ fuel _ _ _ q h
  · intro env deadline fuel remaining s t hs hr
    rw [sleep_quanta, if_neg (not_le.mpr hr), hs]
    simp
  · intro env d fuel remaining s t hs hd hle hr
    rw [sleep_quanta, if_neg (not_le.mpr hr), hs]
    simp only [Bool.false_eq_true, if_false]
    rw [show deadline_hit (some d) (env.now_at t) = true by
      simp [deadline_hit, bne_iff_ne, hd, hle]]
    simp
  · intro env pattern amp interval deadline fuel step s t hs
    rw [run_loop, hs]
    simp
  · intro env pattern amp interval d fuel step s t hs hd hle
    rw [run_loop, hs]
    simp only [Bool.false_eq_true, if_false]
    rw [show deadline_hit (some d) (env.now_at t) = true by
      simp [deadline_hit, bne_iff_ne, hd, hle]]
    simp

/-- C5 witness: a concrete quantum is positive and at most 0.2s; a stop
observation ends the inner sleep loop and the outer loop at once; a passed
unit deadline ends the inner sleep loop and the outer loop. -/
theorem run_sleeps_in_responsive_quanta_witness :
    ((0 : ℚ) < 1/5 ∧ (1/5 : ℚ) ≤ 1/5) ∧
    sleep_quanta env_stop Option.none 1 1 0 0 = ([], some (1, 0)) ∧
    sleep_quanta env_free (some 1) 1 1 0 0 = ([], some (1, 1)) ∧
    run_loop env_stop SquarePattern.next_delta 1 1 Option.none 1 0 0 0 = ([], true) ∧
    run_loop env_free SquarePattern.next_delta 1 1 (some 1) 1 0 0 0 = ([], true) :=
  ⟨run_sleeps_in_responsive_quanta.1 env_free SquarePattern.next_delta cfg1 7 1
      { pid := Option.none, stop := false } (1/5)
      (by with_unfolding_all
            exact List.Mem.tail _ (List.Mem.tail _ (List.Mem.tail _ (List.Mem.head _)))),
   run_sleeps_in_responsive_quanta.2.1 env_stop Option.none 0 1 0 0 rfl (by norm_num),
   run_sleeps_in_responsive_quanta.2.2.1 env_free 1 0 1 0 0 rfl (by norm_num)
      (by norm_num [env_free]) (by norm_num),
   run_sleeps_in_responsive_quanta.2.2.2.1 env_stop SquarePattern.next_delta 1 1
      Option.none 0 0 0 0 rfl,
   run_sleeps_in_responsive_quanta.2.2.2.2 env_free SquarePattern.next_delta 1 1 1 0 0 0 0
      rfl (by norm_num) (by norm_num [env_free])⟩

end MouseJiggler
